import Mathlib

/-!
Verification of the clas12ai ML CLI core (src/ml-cli.py) against its
natural-language specification.

The repository ships only the orchestration script `ml-cli.py`; the helper
modules it imports (`utils.svm_utils` with `read_concat_svm_files` and
`segment_svm_data`, and the `models/*` classes) are not present in the
source tree.  Where a claim is decided by that missing code, the relevant
component is modelled from the specification (each such definition carries a
doc comment starting `Modelled from the spec:`).  The dispatch logic of
`ml-cli.py` itself (read_input_data, train_model, test_model, predict,
get_subroutine) is embedded directly from the source.

Numeric feature values and accuracies are modelled as exact rationals.
-/

namespace Clas12

/-- One of the four physics classes used for per-class reporting
(spec section 3, `ClassKey`). -/
inductive ClassKey where
  | A1
  | Ac
  | Ah
  | Af
deriving DecidableEq, Repr

/-- The fixed class ordering used by reports and by the segmented
containers (spec section 4.5: "ordered by a fixed class ordering"). -/
def classList : List ClassKey := [ClassKey.A1, ClassKey.Ac, ClassKey.Ah, ClassKey.Af]

/-- One sample: a dense feature vector together with its raw numeric label
(spec section 3, `Record`). -/
structure Record where
  features : List ℚ
  label : ℤ
deriving DecidableEq, Repr

/-- Pair a features matrix with its index-aligned label vector, as
`ml-cli.py` keeps `X_test` and `y_test` side by side. -/
def recordsOf (X : List (List ℚ)) (y : List ℤ) : List Record :=
  (X.zip y).map (fun p => { features := p.1, label := p.2 })

/-- Modelled from the spec: the Class Segmenter (`segment_svm_data` of
`utils/svm_utils`, not in src).  The subset of `recs` belonging to class
`k` under the external label-to-ClassKey table `classOf`
(spec section 4.3). -/
def classSegment (classOf : ℤ → Option ClassKey) (k : ClassKey)
    (recs : List Record) : List Record :=
  recs.filter (fun r => classOf r.label = some k)

/-- The per-class segments of a record list, one per class in the fixed
class ordering. -/
def segmentedRecords (classOf : ℤ → Option ClassKey) (recs : List Record) :
    List (List Record) :=
  classList.map (fun k => classSegment classOf k recs)

/-- Modelled from the spec: `segment_svm_data` of `utils/svm_utils` (not in
src).  Partitions a dataset into per-class segments in the fixed class
ordering; fails (UnknownClassLabelError) when some label has no entry in
the mapping (spec section 4.3). -/
def segment_svm_data (classOf : ℤ → Option ClassKey) (X : List (List ℚ))
    (y : List ℤ) : Except String (List (List (List ℚ)) × List (List ℤ)) :=
  if (recordsOf X y).all (fun r => (classOf r.label).isSome) then
    Except.ok
      ((segmentedRecords classOf (recordsOf X y)).map (List.map Record.features),
       (segmentedRecords classOf (recordsOf X y)).map (List.map Record.label))
  else
    Except.error "UnknownClassLabelError"

lemma list_sum_map_add {α : Type} (l : List α) (f g : α → ℕ) :
    (l.map (fun x => f x + g x)).sum = (l.map f).sum + (l.map g).sum := by
  induction l with
  | nil => simp
  | cons a t ih => simp [ih]; omega

lemma classList_indicator_sum (c : ClassKey) :
    (classList.map (fun k => if c = k then 1 else 0)).sum = 1 := by
  cases c <;> rfl

lemma sum_classSegment_lengths (classOf : ℤ → Option ClassKey)
    (recs : List Record) (hall : ∀ r ∈ recs, (classOf r.label).isSome) :
    (classList.map (fun k => (classSegment classOf k recs).length)).sum
      = recs.length := by
  induction recs with
  | nil => simp [classSegment, classList]
  | cons r rs ih =>
    obtain ⟨c, hc⟩ := Option.isSome_iff_exists.mp (hall r (List.mem_cons_self r rs))
    have hrs : ∀ x ∈ rs, (classOf x.label).isSome := by
      intro x hx
      exact hall x (List.mem_cons_of_mem r hx)
    have hsplit : ∀ k : ClassKey,
        (classSegment classOf k (r :: rs)).length
          = (if c = k then 1 else 0) + (classSegment classOf k rs).length := by
      intro k
      by_cases hck : c = k
      · subst hck
        simp [classSegment, List.filter_cons, hc, Nat.add_comm]
      · have hne : ¬ (classOf r.label = some k) := by
          rw [hc]
          simp
          exact hck
        simp [classSegment, List.filter_cons, hne, hck]
    calc (classList.map (fun k => (classSegment classOf k (r :: rs)).length)).sum
        = (classList.map (fun k =>
            (if c = k then 1 else 0) + (classSegment classOf k rs).length)).sum := by
          congr 1
          exact List.map_congr_left (fun k _ => hsplit k)
      _ = (classList.map (fun k => if c = k then 1 else 0)).sum
            + (classList.map (fun k => (classSegment classOf k rs).length)).sum :=
          list_sum_map_add classList _ _
      _ = 1 + rs.length := by rw [classList_indicator_sum, ih hrs]
      _ = (r :: rs).length := by simp [Nat.add_comm]

lemma mem_classSegment_iff (classOf : ℤ → Option ClassKey) (k : ClassKey)
    (recs : List Record) (r : Record) :
    r ∈ classSegment classOf k recs ↔ r ∈ recs ∧ classOf r.label = some k := by
  simp [classSegment]

instance instDecEqExcept {ε α : Type} [DecidableEq ε] [DecidableEq α] :
    DecidableEq (Except ε α) := fun x y =>
  match x, y with
  | Except.ok a, Except.ok b =>
      if h : a = b then Decidable.isTrue (by rw [h])
      else Decidable.isFalse (by intro hh; injection hh; exact h (by assumption))
  | Except.error a, Except.error b =>
      if h : a = b then Decidable.isTrue (by rw [h])
      else Decidable.isFalse (by intro hh; injection hh; exact h (by assumption))
  | Except.ok _, Except.error _ => Decidable.isFalse (by intro hh; injection hh)
  | Except.error _, Except.ok _ => Decidable.isFalse (by intro hh; injection hh)

/-- A sample label-to-ClassKey table, used only in concrete witnesses. -/
def classOfSample : ℤ → Option ClassKey := fun l =>
  if l = 0 then some ClassKey.A1
  else if l = 1 then some ClassKey.Ac
  else if l = 2 then some ClassKey.Ah
  else if l = 3 then some ClassKey.Af
  else none

/-- C1: for every Dataset and label-to-ClassKey mapping for which
segmentation succeeds, the Class Segmenter places every record of the input
Dataset in exactly one segment of the resulting SegmentedDataset, and the
sum of the record counts of all segments equals the record count of the
input Dataset (no record lost, none duplicated). -/
theorem class_segmenter_partition (classOf : ℤ → Option ClassKey)
    (X : List (List ℚ)) (y : List ℤ)
    (Xs : List (List (List ℚ))) (ys : List (List ℤ))
    (hok : segment_svm_data classOf X y = Except.ok (Xs, ys))
    (hlen : X.length = y.length) :
    ys = (segmentedRecords classOf (recordsOf X y)).map (List.map Record.label) ∧
    (ys.map List.length).sum = y.length ∧
    ∀ r ∈ recordsOf X y,
      ∃! k : ClassKey, r ∈ classSegment classOf k (recordsOf X y) := by
  have hg : (recordsOf X y).all (fun r => (classOf r.label).isSome) = true := by
    by_contra hng
    unfold segment_svm_data at hok
    rw [if_neg hng] at hok
    cases hok
  have hall : ∀ r ∈ recordsOf X y, (classOf r.label).isSome := by
    intro r hr
    exact List.all_eq_true.mp hg r hr
  unfold segment_svm_data at hok
  rw [if_pos hg] at hok
  simp only [Except.ok.injEq, Prod.mk.injEq] at hok
  obtain ⟨hXs, hys⟩ := hok
  have hreclen : (recordsOf X y).length = y.length := by
    simp [recordsOf, hlen]
  refine ⟨hys.symm, ?_, ?_⟩
  · rw [← hys]
    rw [List.map_map]
    have hcomp : (List.length ∘ List.map Record.label) = fun l : List Record => l.length := by
      funext l
      simp
    rw [hcomp]
    have : (segmentedRecords classOf (recordsOf X y)).map (fun l => l.length)
        = classList.map (fun k => (classSegment classOf k (recordsOf X y)).length) := by
      simp [segmentedRecords]
    rw [this, sum_classSegment_lengths classOf (recordsOf X y) hall, hreclen]
  · intro r hr
    obtain ⟨c, hc⟩ := Option.isSome_iff_exists.mp (hall r hr)
    refine ⟨c, (mem_classSegment_iff classOf c (recordsOf X y) r).mpr ⟨hr, hc⟩, ?_⟩
    intro k hk
    have hk2 := ((mem_classSegment_iff classOf k (recordsOf X y) r).mp hk).2
    exact Option.some_injective ClassKey (hk2.symm.trans hc)

/-- Concrete instance of `class_segmenter_partition`: a 3-record dataset
segmented with the sample class table. -/
theorem class_segmenter_partition_witness :
    (segment_svm_data classOfSample [[1], [2], [3]] [0, 1, 0]
        = Except.ok ([[[1], [3]], [[2]], [], []], [[0, 0], [1], [], []])
      ∧ ([[1], [2], [3]] : List (List ℚ)).length = ([0, 1, 0] : List ℤ).length)
    ∧ (([[0, 0], [1], [], []] : List (List ℤ))
        = (segmentedRecords classOfSample (recordsOf [[1], [2], [3]] [0, 1, 0])).map
            (List.map Record.label) ∧
      (([[0, 0], [1], [], []] : List (List ℤ)).map List.length).sum
        = ([0, 1, 0] : List ℤ).length ∧
      ∀ r ∈ recordsOf [[1], [2], [3]] [0, 1, 0],
        ∃! k : ClassKey,
          r ∈ classSegment classOfSample k (recordsOf [[1], [2], [3]] [0, 1, 0])) :=
  ⟨⟨by decide, by decide⟩,
   class_segmenter_partition classOfSample [[1], [2], [3]] [0, 1, 0]
     [[[1], [3]], [[2]], [], []] [[0, 0], [1], [], []] (by decide) (by decide)⟩

/-! ## Metrics Evaluator (spec section 4.5)

The evaluator lives inside the models' `test` methods (`models/*`, not in
src); `print_testing_report` in `ml-cli.py` only reads its output fields
(`accuracy_testing`, `confusion_matrix`, `accuracy_A1` .. `accuracy_Af`).
The computation below is modelled from the spec. -/

/-- Modelled from the spec: count of index-aligned positions where the
predicted label equals the true label. -/
def matchCount (pred truth : List ℤ) : ℕ :=
  ((pred.zip truth).filter (fun pt => pt.1 = pt.2)).length

/-- Modelled from the spec: global accuracy = matches / total records,
defined as 0 when there are no records (spec section 4.5). -/
def globalAccuracy (pred truth : List ℤ) : ℚ :=
  if truth.length = 0 then 0
  else (matchCount pred truth : ℚ) / (truth.length : ℚ)

/-- Modelled from the spec: number of records whose true class is `k`. -/
def classTrueCount (classOf : ℤ → Option ClassKey) (k : ClassKey)
    (pred truth : List ℤ) : ℕ :=
  ((pred.zip truth).filter (fun pt => classOf pt.2 = some k)).length

/-- Modelled from the spec: number of records of true class `k` predicted
correctly. -/
def classCorrectCount (classOf : ℤ → Option ClassKey) (k : ClassKey)
    (pred truth : List ℤ) : ℕ :=
  ((pred.zip truth).filter (fun pt => classOf pt.2 = some k ∧ pt.1 = pt.2)).length

/-- Modelled from the spec: per-class accuracy, explicitly undefined
(`none`) when the class has zero true records (spec section 4.5). -/
def perClassAccuracy (classOf : ℤ → Option ClassKey) (k : ClassKey)
    (pred truth : List ℤ) : Option ℚ :=
  if classTrueCount classOf k pred truth = 0 then none
  else some ((classCorrectCount classOf k pred truth : ℚ)
      / (classTrueCount classOf k pred truth : ℚ))

/-- Modelled from the spec: confusion-matrix cell, true class `i`
predicted as class `j`. -/
def confusionCell (classOf : ℤ → Option ClassKey) (i j : ClassKey)
    (pred truth : List ℤ) : ℕ :=
  ((pred.zip truth).filter
    (fun pt => classOf pt.2 = some i ∧ classOf pt.1 = some j)).length

/-- The testing report consumed by `print_testing_report`
(spec section 3, `TestingReport`). -/
structure TestingReport where
  accuracy_testing : ℚ
  confusion_matrix : List (List ℕ)
  per_class_accuracy : ClassKey → Option ℚ

/-- Modelled from the spec: the Metrics Evaluator assembling the
TestingReport from predictions and ground truth. -/
def makeTestingReport (classOf : ℤ → Option ClassKey)
    (pred truth : List ℤ) : TestingReport :=
  { accuracy_testing := globalAccuracy pred truth
    confusion_matrix := classList.map (fun i =>
      classList.map (fun j => confusionCell classOf i j pred truth))
    per_class_accuracy := fun k => perClassAccuracy classOf k pred truth }

/-- C2: for equal-length, index-aligned predicted and true label sequences,
global accuracy equals matches / total, is defined as 0 when the record
count is 0 (no division by zero), and always lies in the interval 0..1. -/
theorem metrics_global_accuracy (pred truth : List ℤ)
    (hlen : pred.length = truth.length) :
    (truth.length = 0 → globalAccuracy pred truth = 0) ∧
    (truth.length ≠ 0 →
      globalAccuracy pred truth
        = (matchCount pred truth : ℚ) / (truth.length : ℚ)) ∧
    0 ≤ globalAccuracy pred truth ∧ globalAccuracy pred truth ≤ 1 := by
  have hm : matchCount pred truth ≤ truth.length := by
    have h1 : matchCount pred truth ≤ (pred.zip truth).length :=
      List.length_filter_le _ _
    have h2 : (pred.zip truth).length = truth.length := by
      rw [List.length_zip, hlen, min_self]
    omega
  refine ⟨fun h0 => by simp [globalAccuracy, h0],
          fun hne => by simp [globalAccuracy, hne], ?_, ?_⟩
  · unfold globalAccuracy
    split
    · exact le_refl 0
    · positivity
  · unfold globalAccuracy
    split
    · exact zero_le_one
    · rename_i hne
      have hpos : (0 : ℚ) < (truth.length : ℚ) := by
        exact_mod_cast Nat.pos_of_ne_zero hne
      rw [div_le_one hpos]
      exact_mod_cast hm

/-- Concrete instance of `metrics_global_accuracy`: two records, one
predicted correctly. -/
theorem metrics_global_accuracy_witness :
    ([1, 2] : List ℤ).length = ([1, 3] : List ℤ).length ∧
    ((([1, 3] : List ℤ).length = 0 → globalAccuracy [1, 2] [1, 3] = 0) ∧
     (([1, 3] : List ℤ).length ≠ 0 →
       globalAccuracy [1, 2] [1, 3]
         = (matchCount [1, 2] [1, 3] : ℚ) / (([1, 3] : List ℤ).length : ℚ)) ∧
     0 ≤ globalAccuracy [1, 2] [1, 3] ∧ globalAccuracy [1, 2] [1, 3] ≤ 1) :=
  ⟨by decide, metrics_global_accuracy [1, 2] [1, 3] (by decide)⟩

/-- C3: per-class accuracy for class `k` is correct-count / true-count when
the class has true records; when it has none, the evaluator does not divide
by zero and the TestingReport surfaces an explicit undefined marker
(`none`), never an ordinary 0. -/
theorem metrics_per_class_accuracy (classOf : ℤ → Option ClassKey)
    (pred truth : List ℤ) (k : ClassKey) :
    (0 < classTrueCount classOf k pred truth →
      (makeTestingReport classOf pred truth).per_class_accuracy k
        = some ((classCorrectCount classOf k pred truth : ℚ)
            / (classTrueCount classOf k pred truth : ℚ))) ∧
    (classTrueCount classOf k pred truth = 0 →
      (makeTestingReport classOf pred truth).per_class_accuracy k = none ∧
      (makeTestingReport classOf pred truth).per_class_accuracy k ≠ some 0) := by
  constructor
  · intro hpos
    have hne : classTrueCount classOf k pred truth ≠ 0 := Nat.pos_iff_ne_zero.mp hpos
    simp [makeTestingReport, perClassAccuracy, hne]
  · intro h0
    constructor
    · simp [makeTestingReport, perClassAccuracy, h0]
    · simp [makeTestingReport, perClassAccuracy, h0]

/-- Concrete instance of `metrics_per_class_accuracy`: class A1 has two
true records (one correct), class Ah has none and is reported undefined. -/
theorem metrics_per_class_accuracy_witness :
    (0 < classTrueCount classOfSample ClassKey.A1 [0, 1] [0, 0] ∧
      (makeTestingReport classOfSample [0, 1] [0, 0]).per_class_accuracy ClassKey.A1
        = some ((classCorrectCount classOfSample ClassKey.A1 [0, 1] [0, 0] : ℚ)
            / (classTrueCount classOfSample ClassKey.A1 [0, 1] [0, 0] : ℚ))) ∧
    (classTrueCount classOfSample ClassKey.Ah [0, 1] [0, 0] = 0 ∧
      (makeTestingReport classOfSample [0, 1] [0, 0]).per_class_accuracy ClassKey.Ah
        = none ∧
      (makeTestingReport classOfSample [0, 1] [0, 0]).per_class_accuracy ClassKey.Ah
        ≠ some 0) :=
  ⟨⟨by decide,
    (metrics_per_class_accuracy classOfSample [0, 1] [0, 0] ClassKey.A1).1 (by decide)⟩,
   ⟨by decide,
    (metrics_per_class_accuracy classOfSample [0, 1] [0, 0] ClassKey.Ah).2 (by decide)⟩⟩

/-! ## Sparse Record Parser and Dataset Assembler (spec sections 4.1, 4.2)

Both live in `read_concat_svm_files` of `utils/svm_utils`, which is not in
src; they are modelled from the spec at the level of text lines. -/

/-- Split a character list on a separator character. -/
def splitOn (sep : Char) : List Char → List (List Char)
  | [] => [[]]
  | c :: cs =>
      if c = sep then [] :: splitOn sep cs
      else
        match splitOn sep cs with
        | [] => [[c]]
        | t :: ts => (c :: t) :: ts

/-- Space-separated tokens of a line, empty tokens dropped. -/
def tokensOf (line : String) : List (List Char) :=
  (splitOn ' ' line.data).filter (fun t => !(t.isEmpty))

/-- The numeric value of a decimal digit character. -/
def charDigit (c : Char) : Option ℕ :=
  if c.isDigit then some (c.toNat - 48) else none

/-- Accumulate decimal digits into a natural number. -/
def digitsToNat (acc : ℕ) : List Char → Option ℕ
  | [] => some acc
  | c :: cs =>
      match charDigit c with
      | some d => digitsToNat (acc * 10 + d) cs
      | none => none

/-- A non-empty all-digit token as a natural number. -/
def parseNat : List Char → Option ℕ
  | [] => none
  | cs => digitsToNat 0 cs

/-- A possibly negative all-digit token as an integer. -/
def parseInt : List Char → Option ℤ
  | [] => none
  | c :: cs =>
      if c = '-' then (parseNat cs).map (fun n => -(n : ℤ))
      else (parseNat (c :: cs)).map (fun n => (n : ℤ))

/-- Modelled from the spec: an unsigned decimal numeral such as `2` or
`0.5`, read as an exact rational. -/
def parseUnsignedDec (cs : List Char) : Option ℚ :=
  match splitOn '.' cs with
  | [w] => (parseNat w).map (fun n => (n : ℚ))
  | [w, f] =>
      match parseNat w, parseNat f with
      | some wn, some fn => some ((wn : ℚ) + (fn : ℚ) / ((10 : ℚ) ^ f.length))
      | _, _ => none
  | _ => none

/-- Modelled from the spec: a possibly negative decimal numeral. -/
def parseDec : List Char → Option ℚ
  | [] => none
  | c :: cs =>
      if c = '-' then (parseUnsignedDec cs).map (fun q => -q)
      else parseUnsignedDec (c :: cs)

/-- Modelled from the spec: one `idx:val` feature token of a sparse line. -/
def parseFeatureTok (t : List Char) : Option (ℕ × ℚ) :=
  match splitOn ':' t with
  | [i, v] =>
      match parseNat i, parseDec v with
      | some idx, some val => some (idx, val)
      | _, _ => none
  | _ => none

/-- Parse every feature token of a line, failing if any is malformed. -/
def parseFeats : List (List Char) → Option (List (ℕ × ℚ))
  | [] => some []
  | t :: ts =>
      match parseFeatureTok t, parseFeats ts with
      | some p, some ps => some (p :: ps)
      | _, _ => none

/-- Densify 1-based (index, value) pairs into a vector of length `D`;
indices not present default to 0 (spec section 4.1). -/
def densify (D : ℕ) (pairs : List (ℕ × ℚ)) : List ℚ :=
  (List.range D).map (fun j =>
    match pairs.find? (fun p => p.1 = j + 1) with
    | some p => p.2
    | none => 0)

/-- Modelled from the spec: the Sparse Record Parser (spec section 4.1).
Parses one line `label idx:val idx:val ...` into the leading label and a
dense vector of length `D`; fails (MalformedRecordError) on a non-numeric
index or value, or an index outside 1..D. -/
def parseSparseLine (D : ℕ) (line : String) : Option (ℤ × List ℚ) :=
  match tokensOf line with
  | [] => none
  | lab :: feats =>
      match parseInt lab, parseFeats feats with
      | some l, some pairs =>
          if pairs.all (fun p => decide (1 ≤ p.1 ∧ p.1 ≤ D)) then
            some (l, densify D pairs)
          else none
      | _, _ => none

lemma find_fst_eq {α β : Type} [DecidableEq α] (p : α × β) (l : List (α × β))
    (hmem : p ∈ l) (hnodup : (l.map Prod.fst).Nodup) :
    l.find? (fun q => q.1 = p.1) = some p := by
  induction l with
  | nil => cases hmem
  | cons q rest ih =>
    rw [List.map_cons, List.nodup_cons] at hnodup
    by_cases hq : q.1 = p.1
    · have hpq : p = q := by
        rcases List.mem_cons.mp hmem with h | h
        · exact h
        · exact absurd (hq ▸ List.mem_map.mpr ⟨p, h, rfl⟩) hnodup.1
      rw [List.find?_cons_of_pos]
      · rw [hpq]
      · simp [hq]
    · have hprest : p ∈ rest := by
        rcases List.mem_cons.mp hmem with h | h
        · exact absurd (congrArg Prod.fst h).symm hq
        · exact h
      rw [List.find?_cons_of_neg]
      · exact ih hprest hnodup.2
      · simp [hq]

/-- C4: for well-formed 1-based (index, value) pairs with all indices at
most `D`, densification yields a vector of exactly length `D` holding each
listed value at its index and 0 everywhere else; in particular the line
`1 3:0.5 6:2.0` with D = 6 parses to the vector 0,0,0.5,0,0,2.0 with
label 1. -/
theorem sparse_record_parser_dense (D : ℕ) (pairs : List (ℕ × ℚ))
    (hidx : ∀ p ∈ pairs, 1 ≤ p.1 ∧ p.1 ≤ D)
    (hnodup : (pairs.map Prod.fst).Nodup) :
    (densify D pairs).length = D ∧
    (∀ p ∈ pairs, (densify D pairs).getD (p.1 - 1) 0 = p.2) ∧
    (∀ j, j < D → (j + 1) ∉ pairs.map Prod.fst → (densify D pairs).getD j 0 = 0) ∧
    parseSparseLine 6 "1 3:0.5 6:2.0" = some (1, [0, 0, 1/2, 0, 0, 2]) := by
  have hlen : (densify D pairs).length = D := by
    simp [densify]
  have hconcrete : parseSparseLine 6 "1 3:0.5 6:2.0" = some (1, [0, 0, 1/2, 0, 0, 2]) := by
    simp +decide [parseSparseLine, tokensOf, splitOn, parseInt, parseNat, digitsToNat,
      charDigit, parseFeats, parseFeatureTok, parseDec, parseUnsignedDec, densify,
      List.range, List.range.loop]
    norm_num
  refine ⟨hlen, ?_, ?_, hconcrete⟩
  · intro p hp
    obtain ⟨h1, hD⟩ := hidx p hp
    have hlt : p.1 - 1 < D := by omega
    have hgd : (densify D pairs).getD (p.1 - 1) 0
        = (densify D pairs).get ⟨p.1 - 1, by rw [hlen]; exact hlt⟩ := by
      rw [List.getD_eq_getElem]
      · rfl
    rw [hgd]
    simp only [densify, List.get_eq_getElem, List.getElem_map, List.getElem_range]
    have hone : p.1 - 1 + 1 = p.1 := by omega
    rw [hone, find_fst_eq p pairs hp hnodup]
  · intro j hj hnot
    have hgd : (densify D pairs).getD j 0
        = (densify D pairs).get ⟨j, by rw [hlen]; exact hj⟩ := by
      rw [List.getD_eq_getElem]
      · rfl
    rw [hgd]
    simp only [densify, List.get_eq_getElem, List.getElem_map, List.getElem_range]
    have hfind : pairs.find? (fun p => p.1 = j + 1) = none := by
      rw [List.find?_eq_none]
      intro q hq
      simp only [decide_eq_true_eq]
      intro hqj
      exact hnot (List.mem_map.mpr ⟨q, hq, hqj⟩)
    rw [hfind]

/-- Concrete instance of `sparse_record_parser_dense` at the pairs of the
scenario line. -/
theorem sparse_record_parser_dense_witness :
    ((∀ p ∈ ([(3, 1/2), (6, 2)] : List (ℕ × ℚ)), 1 ≤ p.1 ∧ p.1 ≤ 6) ∧
      (([(3, 1/2), (6, 2)] : List (ℕ × ℚ)).map Prod.fst).Nodup) ∧
    ((densify 6 [(3, 1/2), (6, 2)]).length = 6 ∧
     (∀ p ∈ ([(3, 1/2), (6, 2)] : List (ℕ × ℚ)),
       (densify 6 [(3, 1/2), (6, 2)]).getD (p.1 - 1) 0 = p.2) ∧
     (∀ j, j < 6 → (j + 1) ∉ ([(3, 1/2), (6, 2)] : List (ℕ × ℚ)).map Prod.fst →
       (densify 6 [(3, 1/2), (6, 2)]).getD j 0 = 0) ∧
     parseSparseLine 6 "1 3:0.5 6:2.0" = some (1, [0, 0, 1/2, 0, 0, 2])) :=
  ⟨⟨by decide, by decide⟩,
   sparse_record_parser_dense 6 [(3, 1/2), (6, 2)] (by decide) (by decide)⟩

/-- Modelled from the spec: whitespace-only or comment lines are skipped,
not an error (spec section 4.1). -/
def isSkippable (line : String) : Bool :=
  line.data.all (fun c => c = ' ') || (line.data.head? = some '#')

/-- Parse a list of record lines, failing if any is malformed. -/
def parseLines (D : ℕ) : List String → Option (List (ℤ × List ℚ))
  | [] => some []
  | l :: ls =>
      match parseSparseLine D l, parseLines D ls with
      | some r, some rs => some (r :: rs)
      | _, _ => none

/-- Modelled from the spec: all records of one file, in line order; a file
is modelled by its list of text lines (spec section 4.2). -/
def parseFileLines (D : ℕ) (lines : List String) : Option (List (ℤ × List ℚ)) :=
  parseLines D (lines.filter (fun l => !(isSkippable l)))

/-- Parse each file of an ordered file list. -/
def parseFilesEach (D : ℕ) : List (List String) → Option (List (List (ℤ × List ℚ)))
  | [] => some []
  | f :: fs =>
      match parseFileLines D f, parseFilesEach D fs with
      | some r, some rs => some (r :: rs)
      | _, _ => none

/-- Modelled from the spec: `read_concat_svm_files` of `utils/svm_utils`
(not in src).  The Dataset Assembler: parse every record of every file, in
file order then line order, into one concatenated dataset
(spec section 4.2). -/
def read_concat_svm_files (D : ℕ) (files : List (List String)) :
    Option (List (ℤ × List ℚ)) :=
  (parseFilesEach D files).map List.flatten

/-- C5: for every ordered list of readable files, the assembled dataset is
the concatenation of the per-file records in file order then line order,
its record count is the sum of the per-file record counts, and swapping
two files permutes the records without changing content or count. -/
theorem dataset_assembler_concat (D : ℕ) (files : List (List String))
    (rss : List (List (ℤ × List ℚ)))
    (hp : parseFilesEach D files = some rss) :
    read_concat_svm_files D files = some rss.flatten ∧
    rss.flatten.length = (rss.map List.length).sum ∧
    ∀ f1 f2 r1 r2, parseFileLines D f1 = some r1 → parseFileLines D f2 = some r2 →
      read_concat_svm_files D [f1, f2] = some (r1 ++ r2) ∧
      read_concat_svm_files D [f2, f1] = some (r2 ++ r1) ∧
      (r1 ++ r2).Perm (r2 ++ r1) ∧
      (r1 ++ r2).length = r1.length + r2.length := by
  refine ⟨by simp [read_concat_svm_files, hp], List.length_flatten rss, ?_⟩
  intro f1 f2 r1 r2 h1 h2
  refine ⟨?_, ?_, List.perm_append_comm, List.length_append r1 r2⟩
  · simp [read_concat_svm_files, parseFilesEach, h1, h2]
  · simp [read_concat_svm_files, parseFilesEach, h1, h2]

/-- Concrete instance of `dataset_assembler_concat`: two files of one
record each, the second with a leading comment line. -/
theorem dataset_assembler_concat_witness :
    parseFilesEach 6 [["1 3:0.5 6:2.0"], ["# c", "2 1:1"]]
      = some [[(1, [0, 0, 1/2, 0, 0, 2])], [(2, [1, 0, 0, 0, 0, 0])]] ∧
    (read_concat_svm_files 6 [["1 3:0.5 6:2.0"], ["# c", "2 1:1"]]
      = some ([[(1, [0, 0, 1/2, 0, 0, 2])], [(2, [1, 0, 0, 0, 0, 0])]] :
          List (List (ℤ × List ℚ))).flatten ∧
     (([[(1, [0, 0, 1/2, 0, 0, 2])], [(2, [1, 0, 0, 0, 0, 0])]] :
          List (List (ℤ × List ℚ))).flatten.length
        = (([[(1, [0, 0, 1/2, 0, 0, 2])], [(2, [1, 0, 0, 0, 0, 0])]] :
            List (List (ℤ × List ℚ))).map List.length).sum) ∧
     ∀ f1 f2 r1 r2, parseFileLines 6 f1 = some r1 → parseFileLines 6 f2 = some r2 →
       read_concat_svm_files 6 [f1, f2] = some (r1 ++ r2) ∧
       read_concat_svm_files 6 [f2, f1] = some (r2 ++ r1) ∧
       (r1 ++ r2).Perm (r2 ++ r1) ∧
       (r1 ++ r2).length = r1.length + r2.length) :=
  ⟨by
    simp +decide [parseFilesEach, parseFileLines, parseLines, isSkippable,
      parseSparseLine, tokensOf, splitOn, parseInt, parseNat, digitsToNat,
      charDigit, parseFeats, parseFeatureTok, parseDec, parseUnsignedDec, densify,
      List.range, List.range.loop]
    norm_num,
   dataset_assembler_concat 6 [["1 3:0.5 6:2.0"], ["# c", "2 1:1"]]
     [[(1, [0, 0, 1/2, 0, 0, 2])], [(2, [1, 0, 0, 0, 0, 0])]]
     (by
       simp +decide [parseFilesEach, parseFileLines, parseLines, isSkippable,
         parseSparseLine, tokensOf, splitOn, parseInt, parseNat, digitsToNat,
         charDigit, parseFeats, parseFeatureTok, parseDec, parseUnsignedDec, densify,
         List.range, List.range.loop]
       norm_num)⟩

/-! ## Model persistence (spec sections 4.4 and 6)

The model classes (`models/ExtraTreesModel`, `models/MlpModel`,
`models/CnnModel`) are not in src; the spec only requires save/load
round-trip fidelity: `load_model(save_model(M))` must be
test/predict-equivalent to `M`.  The trained parameters are modelled as
per-class weight vectors and the persistent representation as a stream of
integer tokens. -/

/-- Modelled from the spec: a trained model's backend parameters (the
learning algorithm itself is an external collaborator), abstracted as one
weight vector per raw class label. -/
structure TrainedModel where
  classes : List ℤ
  weights : List (List ℚ)
deriving DecidableEq, Repr

/-- Linear score of a weight vector on an input vector. -/
def score (w x : List ℚ) : ℚ :=
  ((w.zip x).map (fun p => p.1 * p.2)).sum

/-- Best (label, score) pair among the class/weight pairs, earliest wins
ties; `none` for a model with no classes. -/
def argmaxAux (x : List ℚ) : List (ℤ × List ℚ) → Option (ℤ × ℚ)
  | [] => none
  | cw :: rest =>
      match argmaxAux x rest with
      | none => some (cw.1, score cw.2 x)
      | some (b, s) =>
          if s ≤ score cw.2 x then some (cw.1, score cw.2 x) else some (b, s)

/-- Predicted label for one input record. -/
def predictOne (m : TrainedModel) (x : List ℚ) : ℤ :=
  match argmaxAux x (m.classes.zip m.weights) with
  | some bs => bs.1
  | none => 0

/-- Predictions for a whole dataset, one label per record in input order
(spec section 4.4, `predict`). -/
def predictBatch (m : TrainedModel) (X : List (List ℚ)) : List ℤ :=
  X.map (predictOne m)

/-- One rational as two integer tokens, numerator then denominator. -/
def encodeQ (q : ℚ) : List ℤ := [q.num, (q.den : ℤ)]

/-- Read back one rational from the token stream. -/
def decodeQ : List ℤ → Option (ℚ × List ℤ)
  | n :: d :: rest => some ((n : ℚ) / (d : ℚ), rest)
  | _ => none

/-- A rational vector as tokens: length prefix then each entry. -/
def encodeQList (ws : List ℚ) : List ℤ :=
  (ws.length : ℤ) :: (ws.map encodeQ).flatten

/-- Read back `n` rationals from the token stream. -/
def decodeQs : ℕ → List ℤ → Option (List ℚ × List ℤ)
  | 0, ts => some ([], ts)
  | n + 1, ts =>
      match decodeQ ts with
      | some (q, ts1) =>
          match decodeQs n ts1 with
          | some (qs, ts2) => some (q :: qs, ts2)
          | none => none
      | none => none

/-- Read back a length-prefixed rational vector. -/
def decodeQList : List ℤ → Option (List ℚ × List ℤ)
  | [] => none
  | n :: ts => if n < 0 then none else decodeQs n.toNat ts

/-- An integer vector as tokens: length prefix then the entries. -/
def encodeZList (zs : List ℤ) : List ℤ := (zs.length : ℤ) :: zs

/-- Read back a length-prefixed integer vector. -/
def decodeZList : List ℤ → Option (List ℤ × List ℤ)
  | [] => none
  | n :: ts =>
      if n < 0 then none
      else if n.toNat ≤ ts.length then some (ts.take n.toNat, ts.drop n.toNat)
      else none

/-- A list of rational vectors as tokens: count prefix then each vector. -/
def encodeWLists (wss : List (List ℚ)) : List ℤ :=
  (wss.length : ℤ) :: (wss.map encodeQList).flatten

/-- Read back `n` length-prefixed rational vectors. -/
def decodeWs : ℕ → List ℤ → Option (List (List ℚ) × List ℤ)
  | 0, ts => some ([], ts)
  | n + 1, ts =>
      match decodeQList ts with
      | some (ws, ts1) =>
          match decodeWs n ts1 with
          | some (wss, ts2) => some (ws :: wss, ts2)
          | none => none
      | none => none

/-- Modelled from the spec: `save_model` serializes the trained parameters
into the backend-defined persistent representation (spec section 4.4). -/
def save_model (m : TrainedModel) : List ℤ :=
  encodeZList m.classes ++ encodeWLists m.weights

/-- Modelled from the spec: `load_model` deserializes a fresh instance
into Trained-equivalent (Loaded) state, failing (PersistenceError) on a
malformed representation (spec section 4.4). -/
def load_model (ts : List ℤ) : Option TrainedModel :=
  match decodeZList ts with
  | some (cs, ts1) =>
      match ts1 with
      | [] => none
      | n :: ts2 =>
          if n < 0 then none
          else
            match decodeWs n.toNat ts2 with
            | some (wss, []) => some { classes := cs, weights := wss }
            | _ => none
  | none => none

lemma decodeQ_encodeQ (q : ℚ) (rest : List ℤ) :
    decodeQ (encodeQ q ++ rest) = some (q, rest) := by
  simp [encodeQ, decodeQ, Rat.num_div_den]

lemma decodeQs_encode (ws : List ℚ) (rest : List ℤ) :
    decodeQs ws.length ((ws.map encodeQ).flatten ++ rest) = some (ws, rest) := by
  induction ws generalizing rest with
  | nil => simp [decodeQs]
  | cons w ws ih =>
    simp only [List.map_cons, List.flatten_cons, List.length_cons, List.append_assoc,
      decodeQs, decodeQ_encodeQ, ih]

lemma decodeQList_encodeQList (ws : List ℚ) (rest : List ℤ) :
    decodeQList (encodeQList ws ++ rest) = some (ws, rest) := by
  simp only [encodeQList, List.cons_append]
  rw [decodeQList]
  have h1 : ¬ ((ws.length : ℤ) < 0) := by omega
  rw [if_neg h1, Int.toNat_natCast, decodeQs_encode]

lemma decodeZList_encodeZList (zs : List ℤ) (rest : List ℤ) :
    decodeZList (encodeZList zs ++ rest) = some (zs, rest) := by
  simp only [encodeZList, List.cons_append]
  rw [decodeZList]
  have h1 : ¬ ((zs.length : ℤ) < 0) := by omega
  rw [if_neg h1, Int.toNat_natCast]
  rw [if_pos (by simp)]
  rw [List.take_left, List.drop_left]

lemma decodeWs_encode (wss : List (List ℚ)) (rest : List ℤ) :
    decodeWs wss.length ((wss.map encodeQList).flatten ++ rest) = some (wss, rest) := by
  induction wss generalizing rest with
  | nil => simp [decodeWs]
  | cons ws wss ih =>
    simp only [List.map_cons, List.flatten_cons, List.length_cons, List.append_assoc,
      decodeWs, decodeQList_encodeQList, ih]

/-- C6: saving a trained model and loading it into a fresh instance yields
a model that is predict-equivalent to the original: identical predictions
on every input dataset. -/
theorem model_save_load_roundtrip (m : TrainedModel) :
    load_model (save_model m) = some m ∧
    ∀ X : List (List ℚ),
      (load_model (save_model m)).map (fun m2 => predictBatch m2 X)
        = some (predictBatch m X) := by
  have hload : load_model (save_model m) = some m := by
    rw [save_model, load_model]
    rw [decodeZList_encodeZList m.classes (encodeWLists m.weights)]
    simp only [encodeWLists]
    have h1 : ¬ ((m.weights.length : ℤ) < 0) := by omega
    rw [if_neg h1, Int.toNat_natCast]
    have h2 := decodeWs_encode m.weights ([] : List ℤ)
    rw [List.append_nil] at h2
    rw [h2]
  refine ⟨hload, fun X => by rw [hload]; simp⟩

/-! ## The dispatch logic of src/ml-cli.py (embedded from the source)

`read_input_data` (lines 80-132), the model-construction chains of
`train_model`/`test_model` (lines 176-185, 206-215), `predict`
(lines 222-233) and `get_subroutine` (lines 235-257). -/

/-- The features/labels part of the input dictionary
(`{"data": ..., "labels": ...}`); the scalar epoch/batch-size entries are
omitted as no claim concerns them. -/
structure DataPart where
  data : List (List ℚ)
  labels : List ℤ
deriving DecidableEq, Repr

/-- The `testing_segmented` entry of the input dictionary. -/
structure SegPart where
  data : List (List (List ℚ))
  labels : List (List ℤ)
deriving DecidableEq, Repr

/-- The dictionary returned by `read_input_data`; `training` is present
only for the "train" input type. -/
structure InputDict where
  training : Option DataPart
  testing : DataPart
  testing_segmented : SegPart
  total_test_samples : ℕ
deriving DecidableEq, Repr

/-- Outcome of a call that may return a value, raise an exception that
propagates to the caller, or end the process. -/
inductive ReadOutcome where
  | ok (d : InputDict)
  | raised (e : String)
  | quit
deriving DecidableEq, Repr

/-- The "test" branch of `read_input_data` (src/ml-cli.py lines 111-125):
assemble the testing files, segment, and return the dictionary with
`total_test_samples = len(y_test_segmented)`. -/
def readTestBranch (classOf : ℤ → Option ClassKey) (D : ℕ)
    (testingFiles : List (List String)) : ReadOutcome :=
  match read_concat_svm_files D testingFiles with
  | some testRecs =>
      match segment_svm_data classOf (testRecs.map Prod.snd) (testRecs.map Prod.fst) with
      | Except.ok (Xseg, yseg) =>
          ReadOutcome.ok
            { training := none
              testing := { data := testRecs.map Prod.snd, labels := testRecs.map Prod.fst }
              testing_segmented := { data := Xseg, labels := yseg }
              total_test_samples := yseg.length }
      | Except.error e => ReadOutcome.raised e
  | none => ReadOutcome.raised "MalformedRecordError"

/-- The "train" branch of `read_input_data` (src/ml-cli.py lines 93-109):
assemble training and testing files, segment the testing data, and return
the dictionary with `total_test_samples = len(y_test_segmented)`. -/
def readTrainBranch (classOf : ℤ → Option ClassKey) (D : ℕ)
    (trainingFiles testingFiles : List (List String)) : ReadOutcome :=
  match read_concat_svm_files D trainingFiles, read_concat_svm_files D testingFiles with
  | some trainRecs, some testRecs =>
      match segment_svm_data classOf (testRecs.map Prod.snd) (testRecs.map Prod.fst) with
      | Except.ok (Xseg, yseg) =>
          ReadOutcome.ok
            { training := some { data := trainRecs.map Prod.snd, labels := trainRecs.map Prod.fst }
              testing := { data := testRecs.map Prod.snd, labels := testRecs.map Prod.fst }
              testing_segmented := { data := Xseg, labels := yseg }
              total_test_samples := yseg.length }
      | Except.error e => ReadOutcome.raised e
  | _, _ => ReadOutcome.raised "MalformedRecordError"

/-- Embedded from `read_input_data` of src/ml-cli.py (lines 80-132): the
"train" and "test" input types go to their branches; any other value —
including "predict", whose branch is commented out in the source — prints
an error and calls `quit()`, ending the process. -/
def read_input_data (classOf : ℤ → Option ClassKey) (D : ℕ)
    (input_type : String) (trainingFiles testingFiles : List (List String)) :
    ReadOutcome :=
  if input_type = "train" then readTrainBranch classOf D trainingFiles testingFiles
  else if input_type = "test" then readTestBranch classOf D testingFiles
  else ReadOutcome.quit

/-- The subroutines `get_subroutine` can return. -/
inductive Subroutine where
  | trainModelSub
  | testModelSub
  | predictSub
deriving DecidableEq, Repr

/-- Outcome of `get_subroutine`: a subroutine, or process termination. -/
inductive SubroutineOutcome where
  | chosen (s : Subroutine)
  | quit
deriving DecidableEq, Repr

/-- Embedded from `get_subroutine` of src/ml-cli.py (lines 235-257): an
unrecognized subprogram prints a fatal error and calls `quit()`. -/
def get_subroutine (subprogram : String) : SubroutineOutcome :=
  if subprogram = "train" then SubroutineOutcome.chosen Subroutine.trainModelSub
  else if subprogram = "test" then SubroutineOutcome.chosen Subroutine.testModelSub
  else if subprogram = "predict" then SubroutineOutcome.chosen Subroutine.predictSub
  else SubroutineOutcome.quit

lemma readTrainBranch_ne_quit (classOf : ℤ → Option ClassKey) (D : ℕ)
    (tr te : List (List String)) :
    readTrainBranch classOf D tr te ≠ ReadOutcome.quit := by
  unfold readTrainBranch
  split
  · split <;> simp
  · simp

lemma readTestBranch_ne_quit (classOf : ℤ → Option ClassKey) (D : ℕ)
    (te : List (List String)) :
    readTestBranch classOf D te ≠ ReadOutcome.quit := by
  unfold readTestBranch
  split
  · split <;> simp
  · simp

/-- C7 counterexample: the code's own read_input_data terminates the
process (`quit()`) when reached with the "predict" input type (its branch
is commented out), and get_subroutine terminates it for an unknown
subprogram — the core does end the process itself on these inputs, rather
than propagating a typed error. -/
theorem core_no_process_exit_counterexample :
    read_input_data classOfSample 6 "predict" [] [] = ReadOutcome.quit ∧
    get_subroutine "foo" = SubroutineOutcome.quit := by
  constructor <;> rfl

/-- C7 (amended): `read_input_data` ends the process for every input_type
other than "train"/"test" (including "predict"), and `get_subroutine`
ends it exactly for subprograms outside train/test/predict; for the
recognized values neither ends the process — failures propagate as raised
errors or returned values instead. -/
theorem core_process_exit_behavior (classOf : ℤ → Option ClassKey) (D : ℕ)
    (t : String) (tr te : List (List String)) :
    ((t ≠ "train" ∧ t ≠ "test") →
      read_input_data classOf D t tr te = ReadOutcome.quit) ∧
    ((t = "train" ∨ t = "test") →
      read_input_data classOf D t tr te ≠ ReadOutcome.quit) ∧
    ∀ s : String,
      (s ≠ "train" ∧ s ≠ "test" ∧ s ≠ "predict") ↔
        get_subroutine s = SubroutineOutcome.quit := by
  refine ⟨?_, ?_, ?_⟩
  · rintro ⟨h1, h2⟩
    unfold read_input_data
    rw [if_neg h1, if_neg h2]
  · rintro (h | h) <;> subst h <;> unfold read_input_data
    · rw [if_pos rfl]
      exact readTrainBranch_ne_quit classOf D tr te
    · rw [if_neg (by decide), if_pos rfl]
      exact readTestBranch_ne_quit classOf D te
  · intro s
    constructor
    · rintro ⟨h1, h2, h3⟩
      unfold get_subroutine
      rw [if_neg h1, if_neg h2, if_neg h3]
    · intro hq
      unfold get_subroutine at hq
      refine ⟨?_, ?_, ?_⟩ <;> intro he <;> subst he <;> simp at hq

/-- Concrete instance of `core_process_exit_behavior` at input_type
"predict" (quits) and "test" (does not quit). -/
theorem core_process_exit_behavior_witness :
    (("predict" : String) ≠ "train" ∧ ("predict" : String) ≠ "test") ∧
    read_input_data classOfSample 6 "predict" [] [] = ReadOutcome.quit ∧
    read_input_data classOfSample 6 "test" [] [] ≠ ReadOutcome.quit :=
  ⟨⟨by decide, by decide⟩,
   (core_process_exit_behavior classOfSample 6 "predict" [] []).1 ⟨by decide, by decide⟩,
   (core_process_exit_behavior classOfSample 6 "test" [] []).2.1 (Or.inr rfl)⟩

/-- The three backend variants dispatched in src/ml-cli.py. -/
inductive ModelKind where
  | et
  | mlp
  | cnn
deriving DecidableEq, Repr

/-- Embedded from the `model = None; if/elif` chains of
train_model/test_model/predict (src/ml-cli.py lines 176-183, 208-213,
223-228): an unrecognized model_type matches no branch and leaves `model`
as None. -/
def constructModel (model_type : String) : Option ModelKind :=
  if model_type = "et" then some ModelKind.et
  else if model_type = "mlp" then some ModelKind.mlp
  else if model_type = "cnn" then some ModelKind.cnn
  else none

/-- Outcome of the model-construction step followed by the first method
call on the model (`build_new_model` in train_model, `load_model` in
test_model).  `unsupportedModelTypeError` is the typed error the spec
prescribes; the constructor exists so the claim can be stated. -/
inductive BuildOutcome where
  | ok (m : ModelKind)
  | attributeError
  | unsupportedModelTypeError
deriving DecidableEq, Repr

/-- Embedded from src/ml-cli.py lines 176-185: when no branch of the
chain matches, `model` stays None and the following
`model.build_new_model()` (or `model.load_model(...)`) raises the untyped
AttributeError of calling a method on None. -/
def modelConstructionStep (model_type : String) : BuildOutcome :=
  match constructModel model_type with
  | some m => BuildOutcome.ok m
  | none => BuildOutcome.attributeError

/-- C8 counterexample: for the unrecognized model type "svm" the code
proceeds with no model (None) and then fails with an untyped
AttributeError, not with the typed UnsupportedModelTypeError the claim
states. -/
theorem unsupported_model_type_counterexample :
    constructModel "svm" = none ∧
    modelConstructionStep "svm" = BuildOutcome.attributeError ∧
    ¬ (modelConstructionStep "svm" = BuildOutcome.unsupportedModelTypeError) := by
  refine ⟨rfl, rfl, by decide⟩

/-- C8 (amended): for every model-type value outside {et, mlp, cnn}, the
construction step leaves the model as None and the subsequent method call
fails with the untyped AttributeError; UnsupportedModelTypeError is never
raised. -/
theorem unsupported_model_type_behavior (mt : String)
    (h1 : mt ≠ "et") (h2 : mt ≠ "mlp") (h3 : mt ≠ "cnn") :
    constructModel mt = none ∧
    modelConstructionStep mt = BuildOutcome.attributeError ∧
    ¬ (modelConstructionStep mt = BuildOutcome.unsupportedModelTypeError) := by
  have hc : constructModel mt = none := by
    unfold constructModel
    rw [if_neg h1, if_neg h2, if_neg h3]
  refine ⟨hc, ?_, ?_⟩
  · unfold modelConstructionStep
    rw [hc]
  · unfold modelConstructionStep
    rw [hc]
    simp

/-- Concrete instance of `unsupported_model_type_behavior` at "rf". -/
theorem unsupported_model_type_behavior_witness :
    (("rf" : String) ≠ "et" ∧ ("rf" : String) ≠ "mlp" ∧ ("rf" : String) ≠ "cnn") ∧
    (constructModel "rf" = none ∧
     modelConstructionStep "rf" = BuildOutcome.attributeError ∧
     ¬ (modelConstructionStep "rf" = BuildOutcome.unsupportedModelTypeError)) :=
  ⟨⟨by decide, by decide, by decide⟩,
   unsupported_model_type_behavior "rf" (by decide) (by decide) (by decide)⟩

/-- The ways the predict subroutine can leave. -/
inductive PredictOutcome where
  | notImplementedError
  | attributeError
  | persistenceError
deriving DecidableEq, Repr

/-- What one run of the predict subroutine did. -/
structure PredictRun where
  outcome : PredictOutcome
  wrotePredictions : Bool
deriving DecidableEq, Repr

/-- Embedded from `predict` of src/ml-cli.py (lines 222-233): the model is
constructed by the if/elif chain, `load_model(args.model_path)` is called,
then `raise NotImplementedError` is reached unconditionally; no prediction
is ever written to the requested output file.  Whether the load succeeds
is abstracted as `loadOk` (models/* are not in src; the spec names load
failure PersistenceError). -/
def predictSubroutine (model_type : String) (loadOk : Bool) : PredictRun :=
  match constructModel model_type with
  | none => { outcome := PredictOutcome.attributeError, wrotePredictions := false }
  | some _ =>
      if loadOk then
        { outcome := PredictOutcome.notImplementedError, wrotePredictions := false }
      else
        { outcome := PredictOutcome.persistenceError, wrotePredictions := false }

/-- C9: for every invocation of the predict subcommand whose model is
constructed and loads successfully, the subroutine raises
NotImplementedError after loading the model; and on every run whatsoever
it never writes predictions to the output file. -/
theorem predict_raises_not_implemented (model_type : String) (loadOk : Bool)
    (hm : (constructModel model_type).isSome) (hl : loadOk = true) :
    (predictSubroutine model_type loadOk).outcome
      = PredictOutcome.notImplementedError ∧
    (predictSubroutine model_type loadOk).wrotePredictions = false ∧
    ∀ mt lo, (predictSubroutine mt lo).wrotePredictions = false := by
  obtain ⟨m, hmeq⟩ := Option.isSome_iff_exists.mp hm
  subst hl
  refine ⟨?_, ?_, ?_⟩
  · unfold predictSubroutine
    rw [hmeq]
    simp
  · unfold predictSubroutine
    rw [hmeq]
    simp
  · intro mt lo
    unfold predictSubroutine
    split
    · rfl
    · split <;> rfl

/-- Concrete instance of `predict_raises_not_implemented` for the cnn
backend with a successful load. -/
theorem predict_raises_not_implemented_witness :
    ((constructModel "cnn").isSome ∧ true = true) ∧
    ((predictSubroutine "cnn" true).outcome = PredictOutcome.notImplementedError ∧
     (predictSubroutine "cnn" true).wrotePredictions = false ∧
     ∀ mt lo, (predictSubroutine mt lo).wrotePredictions = false) :=
  ⟨⟨by decide, rfl⟩, predict_raises_not_implemented "cnn" true (by decide) rfl⟩

lemma segment_labels_length (classOf : ℤ → Option ClassKey) (X : List (List ℚ))
    (y : List ℤ) (Xs : List (List (List ℚ))) (ys : List (List ℤ))
    (h : segment_svm_data classOf X y = Except.ok (Xs, ys)) :
    ys.length = classList.length := by
  unfold segment_svm_data at h
  by_cases hg : (recordsOf X y).all (fun r => (classOf r.label).isSome) = true
  · rw [if_pos hg] at h
    simp only [Except.ok.injEq, Prod.mk.injEq] at h
    rw [← h.2]
    simp [segmentedRecords]
  · rw [if_neg hg] at h
    cases h

lemma readTestBranch_ok_total (classOf : ℤ → Option ClassKey) (D : ℕ)
    (te : List (List String)) (d : InputDict)
    (hok : readTestBranch classOf D te = ReadOutcome.ok d) :
    d.total_test_samples = d.testing_segmented.labels.length ∧
    d.testing_segmented.labels.length = classList.length := by
  unfold readTestBranch at hok
  cases h1 : read_concat_svm_files D te with
  | none =>
    rw [h1] at hok
    cases hok
  | some testRecs =>
    simp only [h1] at hok
    cases h2 : segment_svm_data classOf (testRecs.map Prod.snd) (testRecs.map Prod.fst) with
    | error e =>
      simp only [h2] at hok
      cases hok
    | ok p =>
      obtain ⟨Xseg, yseg⟩ := p
      simp only [h2] at hok
      simp only [ReadOutcome.ok.injEq] at hok
      subst hok
      exact ⟨rfl, segment_labels_length classOf _ _ Xseg yseg h2⟩

lemma readTrainBranch_ok_total (classOf : ℤ → Option ClassKey) (D : ℕ)
    (tr te : List (List String)) (d : InputDict)
    (hok : readTrainBranch classOf D tr te = ReadOutcome.ok d) :
    d.total_test_samples = d.testing_segmented.labels.length ∧
    d.testing_segmented.labels.length = classList.length := by
  unfold readTrainBranch at hok
  cases h0 : read_concat_svm_files D tr with
  | none =>
    rw [h0] at hok
    cases hok
  | some trainRecs =>
    cases h1 : read_concat_svm_files D te with
    | none =>
      simp only [h0, h1] at hok
      cases hok
    | some testRecs =>
      simp only [h0, h1] at hok
      cases h2 : segment_svm_data classOf (testRecs.map Prod.snd) (testRecs.map Prod.fst) with
      | error e =>
        simp only [h2] at hok
        cases hok
      | ok p =>
        obtain ⟨Xseg, yseg⟩ := p
        simp only [h2] at hok
        simp only [ReadOutcome.ok.injEq] at hok
        subst hok
        exact ⟨rfl, segment_labels_length classOf _ _ Xseg yseg h2⟩

/-- C10: whenever `read_input_data` returns a dictionary (the "train" and
"test" input types), the value stored under total_test_samples is the
length of the segmented labels container returned by segment_svm_data —
the number of class segments — not the number of records in the full test
label vector. -/
theorem total_test_samples_is_segment_count (classOf : ℤ → Option ClassKey)
    (D : ℕ) (t : String) (tr te : List (List String)) (d : InputDict)
    (hok : read_input_data classOf D t tr te = ReadOutcome.ok d) :
    d.total_test_samples = d.testing_segmented.labels.length ∧
    d.testing_segmented.labels.length = classList.length := by
  unfold read_input_data at hok
  by_cases ht : t = "train"
  · rw [if_pos ht] at hok
    exact readTrainBranch_ok_total classOf D tr te d hok
  · rw [if_neg ht] at hok
    by_cases ht2 : t = "test"
    · rw [if_pos ht2] at hok
      exact readTestBranch_ok_total classOf D te d hok
    · rw [if_neg ht2] at hok
      cases hok

/-- The dictionary produced in the concrete run used by the C10 witness:
five one-feature test records with labels 0,0,0,1,1. -/
def sampleDict : InputDict :=
  { training := none
    testing := { data := [[1], [1], [1], [1], [1]], labels := [0, 0, 0, 1, 1] }
    testing_segmented :=
      { data := [[[1], [1], [1]], [[1], [1]], [], []]
        labels := [[0, 0, 0], [1, 1], [], []] }
    total_test_samples := 4 }

/-- Concrete instance of `total_test_samples_is_segment_count`: five test
records yield total_test_samples = 4 (the number of class segments), not
5 (the number of records). -/
theorem total_test_samples_is_segment_count_witness :
    read_input_data classOfSample 1 "test" []
        [["0 1:1", "0 1:1", "0 1:1", "1 1:1", "1 1:1"]]
      = ReadOutcome.ok sampleDict ∧
    (sampleDict.total_test_samples = sampleDict.testing_segmented.labels.length ∧
     sampleDict.testing_segmented.labels.length = classList.length) ∧
    sampleDict.testing.labels.length = 5 ∧
    sampleDict.total_test_samples ≠ sampleDict.testing.labels.length := by
  have h : read_input_data classOfSample 1 "test" []
      [["0 1:1", "0 1:1", "0 1:1", "1 1:1", "1 1:1"]] = ReadOutcome.ok sampleDict := by
    simp +decide [read_input_data, readTestBranch, read_concat_svm_files, parseFilesEach,
      parseFileLines, parseLines, isSkippable, parseSparseLine, tokensOf, splitOn,
      parseInt, parseNat, digitsToNat, charDigit, parseFeats, parseFeatureTok, parseDec,
      parseUnsignedDec, densify, List.range, List.range.loop, segment_svm_data,
      segmentedRecords, classSegment, recordsOf, classList, classOfSample, sampleDict]
  exact ⟨h,
    total_test_samples_is_segment_count classOfSample 1 "test" [] _ sampleDict h,
    by decide, by decide⟩

end Clas12
